/-
Verification of the orbital-mechanics module of Astro-Trek
(src/script/universe/orbit.js) against its natural-language specification.

The JavaScript classes `KeplerianOrbit`, `TrueAnomaly`, `EccentricAnomaly`
and `MeanAnomaly` are shallowly embedded over the real numbers: every JS
number becomes an `ℝ`, `Math.sin`/`Math.cos`/`Math.sqrt`/`Math.atan2`
become their exact real counterparts, JS `undefined` (a method body with
no `return`) becomes `Option.none`, and a thrown `TypeError` becomes
`Except.error`.
-/
import Mathlib

noncomputable section

open Real

/-- A 2D point, mirroring the `{x, y}` object literals used throughout
`orbit.js`. -/
structure Point where
  x : ℝ
  y : ℝ

/-- JS `Math.atan2(y, x)`: the angle in `(-π, π]` of the vector `(x, y)`,
with `atan2 0 0 = 0`.  Modelled as the complex argument of `x + y·i`,
which has exactly this piecewise definition. -/
def atan2 (y x : ℝ) : ℝ :=
  Complex.arg (x + y * Complex.I)

/-- The `KeplerianOrbit` class of orbit.js (fields as stored on `this`). -/
structure KeplerianOrbit where
  semimajor_axis : ℝ
  eccentricity : ℝ
  argument_of_periapsis : ℝ
  clockwise : Bool

namespace KeplerianOrbit

/-- The JS constructor (orbit.js lines 26–36): stores the absolute values
of `semimajor_axis` and `eccentricity`, and `argument_of_periapsis` and
`clockwise` unchanged.  Total: no input is rejected. -/
def construct (semimajor_axis eccentricity argument_of_periapsis : ℝ)
    (clockwise : Bool) : KeplerianOrbit :=
  { semimajor_axis := |semimajor_axis|
    eccentricity := |eccentricity|
    argument_of_periapsis := argument_of_periapsis
    clockwise := clockwise }

/-- `semiminor_axis()` (orbit.js lines 46–51): `a * sqrt(1 - e*e)`. -/
def semiminor_axis (o : KeplerianOrbit) : ℝ :=
  o.semimajor_axis * Real.sqrt (1.0 - o.eccentricity * o.eccentricity)

/-- `focal_point()` (orbit.js lines 61–63): `e * a`. -/
def focal_point (o : KeplerianOrbit) : ℝ :=
  o.eccentricity * o.semimajor_axis

/-- `periapsis()` (orbit.js lines 74–76): `(1 - e) * a`. -/
def periapsis (o : KeplerianOrbit) : ℝ :=
  (1.0 - o.eccentricity) * o.semimajor_axis

/-- `apoapsis()` (orbit.js lines 87–89): `(1 + e) * a`. -/
def apoapsis (o : KeplerianOrbit) : ℝ :=
  (1.0 + o.eccentricity) * o.semimajor_axis

/-- `rotate_point({x, y})` (orbit.js lines 97–106): negate `y` when
`clockwise`, then rotate by `argument_of_periapsis`. -/
def rotate_point (o : KeplerianOrbit) (p : Point) : Point :=
  let y := if o.clockwise then -p.y else p.y
  let c := Real.cos o.argument_of_periapsis
  let s := Real.sin o.argument_of_periapsis
  { x := p.x * c + y * s
    y := y * c - p.x * s }

/-- `is_clockwise()` (orbit.js lines 114–116). -/
def is_clockwise (o : KeplerianOrbit) : Bool :=
  o.clockwise

end KeplerianOrbit

/-- The `TrueAnomaly` class of orbit.js: a single angle in radians. -/
structure TrueAnomaly where
  angle : ℝ

/-- The `EccentricAnomaly` class of orbit.js: a single angle in radians. -/
structure EccentricAnomaly where
  angle : ℝ

/-- The `MeanAnomaly` class of orbit.js: a single angle in radians. -/
structure MeanAnomaly where
  angle : ℝ

namespace TrueAnomaly

/-- `TrueAnomaly.radius(orbit)` (orbit.js lines 171–177):
`a * (1 - e*e) / (1 + e * cos(angle))`. -/
def radius (ν : TrueAnomaly) (orbit : KeplerianOrbit) : ℝ :=
  orbit.semimajor_axis * (1.0 - orbit.eccentricity * orbit.eccentricity) /
    (1.0 + orbit.eccentricity * Real.cos ν.angle)

/-- `TrueAnomaly.point(orbit)` (orbit.js lines 188–196): the angle used is
`this.angle + orbit.argument_of_periapsis`. -/
def point (ν : TrueAnomaly) (orbit : KeplerianOrbit) : Point :=
  let radius := ν.radius orbit
  let angle := ν.angle + orbit.argument_of_periapsis
  { x := Real.cos angle * radius
    y := Real.sin angle * radius }

/-- `TrueAnomaly.point2d(orbit)` (orbit.js lines 207–209). -/
def point2d (ν : TrueAnomaly) (orbit : KeplerianOrbit) : Point :=
  orbit.rotate_point (ν.point orbit)

/-- `TrueAnomaly.eccentric_anomaly(orbit)` (orbit.js lines 220–229):
`atan2(y / semiminor_axis(), (x + focal_point()) / semimajor_axis)` of
`point(orbit)`. -/
def eccentric_anomaly (ν : TrueAnomaly) (orbit : KeplerianOrbit) :
    EccentricAnomaly :=
  let p := ν.point orbit
  let angle := atan2 (p.y / orbit.semiminor_axis)
    ((p.x + orbit.focal_point) / orbit.semimajor_axis)
  ⟨angle⟩

end TrueAnomaly

namespace EccentricAnomaly

/-- `EccentricAnomaly.radius(orbit)` (orbit.js lines 295–299).  The body
reads `const { x, y } = this.position(orbit)`, but no class in the
repository defines a `position` method (the geometry method is named
`point`), so the call raises `TypeError: this.position is not a function`
before anything is returned; modelled as an `Except.error`. -/
def radius (_E : EccentricAnomaly) (_orbit : KeplerianOrbit) :
    Except String ℝ :=
  Except.error "TypeError: this.position is not a function"

/-- `EccentricAnomaly.point(orbit)` (orbit.js lines 310–317):
`(cos(E) * a - focal_point(), sin(E) * semiminor_axis())`. -/
def point (E : EccentricAnomaly) (orbit : KeplerianOrbit) : Point :=
  { x := Real.cos E.angle * orbit.semimajor_axis - orbit.focal_point
    y := Real.sin E.angle * orbit.semiminor_axis }

/-- `EccentricAnomaly.point2d(orbit)` (orbit.js lines 328–330). -/
def point2d (E : EccentricAnomaly) (orbit : KeplerianOrbit) : Point :=
  orbit.rotate_point (E.point orbit)

/-- `EccentricAnomaly.true_anomaly(orbit)` (orbit.js lines 341–345):
`atan2(y, x)` of `point(orbit)`. -/
def true_anomaly (E : EccentricAnomaly) (orbit : KeplerianOrbit) :
    TrueAnomaly :=
  let p := E.point orbit
  ⟨atan2 p.y p.x⟩

/-- `EccentricAnomaly.mean_anomaly(orbit)` (orbit.js lines 353–357):
`M = E - e * sin(E)`. -/
def mean_anomaly (E : EccentricAnomaly) (orbit : KeplerianOrbit) :
    MeanAnomaly :=
  ⟨E.angle - orbit.eccentricity * Real.sin E.angle⟩

end EccentricAnomaly

/-- `TrueAnomaly.mean_anomaly(orbit)` (orbit.js lines 237–239): delegates
through `eccentric_anomaly(orbit)`. -/
def TrueAnomaly.mean_anomaly (ν : TrueAnomaly) (orbit : KeplerianOrbit) :
    MeanAnomaly :=
  (ν.eccentric_anomaly orbit).mean_anomaly orbit

namespace MeanAnomaly

/-- The convergence tolerance of the Newton solver (orbit.js line 451):
`0.00001 * (Math.PI / 180)`. -/
def tolerance : ℝ := 0.00001 * (Real.pi / 180)

/-- The local `clamp` arrow function of `MeanAnomaly.eccentric_anomaly`
(orbit.js line 460): `Math.min(Math.max(x, min), max)`. -/
def clamp (x lo hi : ℝ) : ℝ := min (max x lo) hi

/-- The `for` loop of `MeanAnomaly.eccentric_anomaly` (orbit.js lines
454–470), with `n` remaining iterations and `E` the current iterate:
compute the residual `f = E - e*sin(E) - M`, subtract the clamped Newton
step from `E`, and return the updated `E` as soon as `|f| < tolerance`;
when the budget runs out, return `E` as is (line 472). -/
def newton_iter (e M : ℝ) : ℕ → ℝ → ℝ
  | 0, E => E
  | n + 1, E =>
    let f := E - e * Real.sin E - M
    let E' := E - clamp (f / (1.0 - e * Real.cos E)) (-e / 2.0) (e / 2.0)
    if |f| < tolerance then E' else newton_iter e M n E'

/-- `MeanAnomaly.eccentric_anomaly(orbit)` (orbit.js lines 450–473):
bounded Newton–Raphson inversion of Kepler's equation, initial guess
`this.angle`, at most 10 iterations. -/
def eccentric_anomaly (Mv : MeanAnomaly) (orbit : KeplerianOrbit) :
    EccentricAnomaly :=
  ⟨newton_iter orbit.eccentricity Mv.angle 10 Mv.angle⟩

/-- `MeanAnomaly.true_anomaly(orbit)` (orbit.js lines 440–442). -/
def true_anomaly (Mv : MeanAnomaly) (orbit : KeplerianOrbit) :
    TrueAnomaly :=
  (Mv.eccentric_anomaly orbit).true_anomaly orbit

/-- `MeanAnomaly.point(orbit)` (orbit.js lines 420–422). -/
def point (Mv : MeanAnomaly) (orbit : KeplerianOrbit) : Point :=
  (Mv.eccentric_anomaly orbit).point orbit

/-- `MeanAnomaly.point2d(orbit)` (orbit.js lines 430–432). -/
def point2d (Mv : MeanAnomaly) (orbit : KeplerianOrbit) : Point :=
  (Mv.eccentric_anomaly orbit).point2d orbit

/-- `MeanAnomaly.radius_at_mean_anomaly(orbit)` (orbit.js lines 410–412).
The body evaluates `this.true_anomaly(orbit).radius(orbit)` but contains
no `return` statement, so the JS function returns `undefined`; modelled
as `Option.none` after the discarded evaluation. -/
def radius_at_mean_anomaly (Mv : MeanAnomaly) (orbit : KeplerianOrbit) :
    Option ℝ :=
  (fun _ => none) ((Mv.true_anomaly orbit).radius orbit)

end MeanAnomaly

/-! ## Specification model of the Newton solver (for claim C1)

Transcribed from the wording of the specification, independently of the
source: initial guess `E₀ = M`; at most 10 iterations; each iteration
computes the residual `f(E) = E - e·sin E - M` and the derivative
`1 - e·cos E`, clamps the raw step `f/f'` to the interval
`[-e/2, e/2]`, updates `E` by subtracting the clamped step, and returns
the current `E` immediately once `|f| < tolerance`; after 10 full
iterations the last `E` is returned unconditionally. -/

/-- Spec wording: `tolerance = 0.00001°` expressed in radians. -/
def specTolerance : ℝ := 0.00001 * (Real.pi / 180)

/-- Spec wording: the residual `f(E) = E - e·sin E - M`. -/
def specResidual (e M E : ℝ) : ℝ := E - e * Real.sin E - M

/-- Spec wording: the derivative `f'(E) = 1 - e·cos E`. -/
def specDerivative (e E : ℝ) : ℝ := 1.0 - e * Real.cos E

/-- Spec wording: clamping a value to the interval `[lo, hi]`. -/
def clampToInterval (x lo hi : ℝ) : ℝ := max lo (min x hi)

/-- Spec wording of the bounded Newton–Raphson loop, with `n` iterations
remaining. -/
def specNewton (e M : ℝ) : ℕ → ℝ → ℝ
  | 0, E => E
  | n + 1, E =>
    let f := specResidual e M E
    let E' := E - clampToInterval (f / specDerivative e E) (-e / 2.0) (e / 2.0)
    if |f| < specTolerance then E' else specNewton e M n E'

/-- Spec wording of `MeanAnomaly.eccentric_anomaly`: Newton–Raphson with
initial guess `M` and a budget of 10 iterations. -/
def spec_eccentric_anomaly (orbit : KeplerianOrbit) (Mv : MeanAnomaly) :
    EccentricAnomaly :=
  ⟨specNewton orbit.eccentricity Mv.angle 10 Mv.angle⟩

/-! ## Stateful views of the method calls (for claim C9)

Each JS method is re-read as a transformer of the mutable objects it can
see: the receiver and the orbit passed by reference.  None of the method
bodies below contains an assignment to `this.*` or to `orbit.*`
(`EccentricAnomaly.radius` throws before returning, mutating nothing, and
`MeanAnomaly.radius_at_mean_anomaly` evaluates and discards), so each
transformer returns the result of the call together with the
post-call receiver and orbit, translated statement by statement from the
source. -/

def KeplerianOrbit.semiminor_axis_st (o : KeplerianOrbit) :
    ℝ × KeplerianOrbit := (o.semiminor_axis, o)

def KeplerianOrbit.focal_point_st (o : KeplerianOrbit) :
    ℝ × KeplerianOrbit := (o.focal_point, o)

def KeplerianOrbit.periapsis_st (o : KeplerianOrbit) :
    ℝ × KeplerianOrbit := (o.periapsis, o)

def KeplerianOrbit.apoapsis_st (o : KeplerianOrbit) :
    ℝ × KeplerianOrbit := (o.apoapsis, o)

def KeplerianOrbit.is_clockwise_st (o : KeplerianOrbit) :
    Bool × KeplerianOrbit := (o.is_clockwise, o)

def KeplerianOrbit.rotate_point_st (o : KeplerianOrbit) (p : Point) :
    Point × KeplerianOrbit := (o.rotate_point p, o)

def TrueAnomaly.radius_st (ν : TrueAnomaly) (o : KeplerianOrbit) :
    ℝ × TrueAnomaly × KeplerianOrbit := (ν.radius o, ν, o)

def TrueAnomaly.point_st (ν : TrueAnomaly) (o : KeplerianOrbit) :
    Point × TrueAnomaly × KeplerianOrbit := (ν.point o, ν, o)

def TrueAnomaly.point2d_st (ν : TrueAnomaly) (o : KeplerianOrbit) :
    Point × TrueAnomaly × KeplerianOrbit := (ν.point2d o, ν, o)

def TrueAnomaly.eccentric_anomaly_st (ν : TrueAnomaly) (o : KeplerianOrbit) :
    EccentricAnomaly × TrueAnomaly × KeplerianOrbit :=
  (ν.eccentric_anomaly o, ν, o)

def TrueAnomaly.mean_anomaly_st (ν : TrueAnomaly) (o : KeplerianOrbit) :
    MeanAnomaly × TrueAnomaly × KeplerianOrbit := (ν.mean_anomaly o, ν, o)

def EccentricAnomaly.radius_st (E : EccentricAnomaly) (o : KeplerianOrbit) :
    Except String ℝ × EccentricAnomaly × KeplerianOrbit := (E.radius o, E, o)

def EccentricAnomaly.point_st (E : EccentricAnomaly) (o : KeplerianOrbit) :
    Point × EccentricAnomaly × KeplerianOrbit := (E.point o, E, o)

def EccentricAnomaly.point2d_st (E : EccentricAnomaly) (o : KeplerianOrbit) :
    Point × EccentricAnomaly × KeplerianOrbit := (E.point2d o, E, o)

def EccentricAnomaly.true_anomaly_st (E : EccentricAnomaly)
    (o : KeplerianOrbit) :
    TrueAnomaly × EccentricAnomaly × KeplerianOrbit := (E.true_anomaly o, E, o)

def EccentricAnomaly.mean_anomaly_st (E : EccentricAnomaly)
    (o : KeplerianOrbit) :
    MeanAnomaly × EccentricAnomaly × KeplerianOrbit := (E.mean_anomaly o, E, o)

def MeanAnomaly.radius_at_mean_anomaly_st (Mv : MeanAnomaly)
    (o : KeplerianOrbit) :
    Option ℝ × MeanAnomaly × KeplerianOrbit :=
  (Mv.radius_at_mean_anomaly o, Mv, o)

def MeanAnomaly.point_st (Mv : MeanAnomaly) (o : KeplerianOrbit) :
    Point × MeanAnomaly × KeplerianOrbit := (Mv.point o, Mv, o)

def MeanAnomaly.point2d_st (Mv : MeanAnomaly) (o : KeplerianOrbit) :
    Point × MeanAnomaly × KeplerianOrbit := (Mv.point2d o, Mv, o)

def MeanAnomaly.true_anomaly_st (Mv : MeanAnomaly) (o : KeplerianOrbit) :
    TrueAnomaly × MeanAnomaly × KeplerianOrbit := (Mv.true_anomaly o, Mv, o)

def MeanAnomaly.eccentric_anomaly_st (Mv : MeanAnomaly) (o : KeplerianOrbit) :
    EccentricAnomaly × MeanAnomaly × KeplerianOrbit :=
  (Mv.eccentric_anomaly o, Mv, o)

/-! ## Analysis helpers for the Newton solver

`kepler` is the residual of Kepler's equation, `kstep` is the update
performed by one pass of the source loop body (orbit.js lines 455–466),
and `kiter` iterates it; these are used to reason about the convergence
of `MeanAnomaly.newton_iter` within its 10-iteration budget. -/

/-- The Kepler residual `f(E) = E - e·sin E - M` computed by each loop
iteration (orbit.js lines 455–458). -/
def kepler (e M E : ℝ) : ℝ := E - e * Real.sin E - M

/-- The update applied to the iterate by one pass of the loop body
(orbit.js lines 462–466), without the early-return test. -/
def kstep (e M E : ℝ) : ℝ :=
  E - MeanAnomaly.clamp (kepler e M E / (1.0 - e * Real.cos E))
    (-e / 2.0) (e / 2.0)

/-- `n`-fold iteration of `kstep`. -/
def kiter (e M : ℝ) : ℕ → ℝ → ℝ
  | 0, E => E
  | n + 1, E => kiter e M n (kstep e M E)

/-! ## Helper lemmas -/

theorem specTolerance_eq : specTolerance = MeanAnomaly.tolerance := rfl

theorem tolerance_pos : 0 < MeanAnomaly.tolerance := by
  have := Real.pi_pos
  unfold MeanAnomaly.tolerance
  positivity

/-- For genuine intervals (`lo ≤ hi`) the source's `min (max x lo) hi`
is the clamp of `x` to `[lo, hi]`. -/
theorem clamp_eq_clampToInterval (x lo hi : ℝ) (h : lo ≤ hi) :
    MeanAnomaly.clamp x lo hi = clampToInterval x lo hi := by
  rw [MeanAnomaly.clamp, clampToInterval, max_min_distrib_left,
    max_comm lo x, max_eq_right h]

/-- The source Newton loop agrees with the spec-worded loop whenever the
eccentricity is nonnegative (as the constructor guarantees). -/
theorem newton_iter_eq_specNewton (e M : ℝ) (he : 0 ≤ e) :
    ∀ n E, MeanAnomaly.newton_iter e M n E = specNewton e M n E := by
  intro n
  induction n with
  | zero => intro E; rfl
  | succ n ih =>
    intro E
    rw [MeanAnomaly.newton_iter, specNewton, specTolerance_eq]
    have hlo : -e / 2.0 ≤ e / 2.0 := by
      have h2 : (2.0 : ℝ) = 2 := by norm_num
      rw [h2]
      linarith
    rw [clamp_eq_clampToInterval _ _ _ hlo, specResidual, specDerivative]
    split_ifs with h
    · rfl
    · exact ih _

/-! ## Claim C1 -/

/-- C1: for every orbit (with the nonnegative eccentricity the constructor
guarantees) and every `MeanAnomaly`, `eccentric_anomaly(orbit)` computes
`E` by bounded Newton–Raphson exactly as specified: initial guess
`E₀ = M`, at most 10 iterations, residual `E - e·sin E - M`, derivative
`1 - e·cos E`, raw step clamped to the interval `[-e/2, e/2]`, `E`
updated by subtracting the clamped step, immediate return of the current
`E` once `|f| < 0.00001°` in radians, and unconditional return of the
last `E` after 10 iterations. -/
theorem C1_newton_solver_as_specified (orbit : KeplerianOrbit)
    (Mv : MeanAnomaly) (he : 0 ≤ orbit.eccentricity) :
    Mv.eccentric_anomaly orbit = spec_eccentric_anomaly orbit Mv := by
  unfold MeanAnomaly.eccentric_anomaly spec_eccentric_anomaly
  rw [newton_iter_eq_specNewton _ _ he]

theorem C1_newton_solver_as_specified_witness :
    (0 : ℝ) ≤ (KeplerianOrbit.mk 1 0.5 0 false).eccentricity ∧
    (MeanAnomaly.mk 1).eccentric_anomaly (KeplerianOrbit.mk 1 0.5 0 false) =
      spec_eccentric_anomaly (KeplerianOrbit.mk 1 0.5 0 false)
        (MeanAnomaly.mk 1) :=
  ⟨by show (0:ℝ) ≤ 0.5; norm_num,
   C1_newton_solver_as_specified (KeplerianOrbit.mk 1 0.5 0 false)
     (MeanAnomaly.mk 1) (by show (0:ℝ) ≤ 0.5; norm_num)⟩

/-! ## Claim C3 -/

/-- C3: `EccentricAnomaly.radius(orbit)` never returns the Euclidean norm
of `point(orbit)` (or any value at all): the body calls `this.position`,
which is not defined anywhere in the repository, so the call raises a
`TypeError` for every input instead of being total and failure-free. -/
theorem C3_radius_always_raises (E : EccentricAnomaly)
    (orbit : KeplerianOrbit) :
    E.radius orbit =
      Except.error "TypeError: this.position is not a function" ∧
    ∀ r : ℝ, E.radius orbit ≠ Except.ok r := by
  refine ⟨rfl, fun r h => ?_⟩
  simp [EccentricAnomaly.radius] at h

/-! ## Claim C4 -/

/-- C4: `MeanAnomaly.radius_at_mean_anomaly(orbit)` evaluates
`this.true_anomaly(orbit).radius(orbit)` but, lacking a `return`
statement, yields `undefined` (`none`) for every input instead of the
delegated radius value. -/
theorem C4_radius_at_mean_anomaly_returns_undefined (Mv : MeanAnomaly)
    (orbit : KeplerianOrbit) :
    Mv.radius_at_mean_anomaly orbit = none ∧
    Mv.radius_at_mean_anomaly orbit ≠
      some ((Mv.true_anomaly orbit).radius orbit) := by
  refine ⟨rfl, fun h => ?_⟩
  simp [MeanAnomaly.radius_at_mean_anomaly] at h

/-! ## Claim C6 -/

/-- C6: `rotate_point(p)` negates `y` exactly when `clockwise`, then
returns `(x·cos ω + y·sin ω, y·cos ω - x·sin ω)` with
`ω = argument_of_periapsis`; with `ω = 0` the images of `(1, 1)` under
`clockwise = true` and `clockwise = false` have y components of opposite
sign. -/
theorem C6_rotate_point_formula (o : KeplerianOrbit) (x y : ℝ) :
    ((o.rotate_point ⟨x, y⟩).x =
        x * Real.cos o.argument_of_periapsis +
          (if o.clockwise then -y else y) *
            Real.sin o.argument_of_periapsis ∧
      (o.rotate_point ⟨x, y⟩).y =
        (if o.clockwise then -y else y) *
            Real.cos o.argument_of_periapsis -
          x * Real.sin o.argument_of_periapsis) ∧
    ∀ a e : ℝ,
      ((KeplerianOrbit.mk a e 0 true).rotate_point ⟨1, 1⟩).y *
          ((KeplerianOrbit.mk a e 0 false).rotate_point ⟨1, 1⟩).y < 0 := by
  refine ⟨⟨rfl, rfl⟩, fun a e => ?_⟩
  simp [KeplerianOrbit.rotate_point]

/-! ## Claim C7 -/

/-- C7 counterexample: the degenerate orbit with `a = 0` and
`e = 1/2 ∈ (0, 1)` has `periapsis() = 0 = semimajor_axis`, so the strict
ordering `periapsis() < semimajor_axis` claimed for all `e ∈ (0, 1)`
fails. -/
theorem C7_apsis_ordering_counterexample :
    (0 : ℝ) < (KeplerianOrbit.mk 0 (1/2) 0 false).eccentricity ∧
    (KeplerianOrbit.mk 0 (1/2) 0 false).eccentricity < 1 ∧
    ¬ ((KeplerianOrbit.mk 0 (1/2) 0 false).periapsis <
        (KeplerianOrbit.mk 0 (1/2) 0 false).semimajor_axis) := by
  refine ⟨by norm_num, by norm_num, ?_⟩
  show ¬ ((1.0 - 1/2) * 0 < (0:ℝ))
  norm_num

/-- C7 (amended): for every orbit with `a ≥ 0` and `e ∈ [0, 1)`,
`0 ≤ periapsis ≤ a ≤ apoapsis` and `periapsis + apoapsis = 2a` exactly;
the ordering is strict when moreover `0 < e` and `0 < a` (the degenerate
`a = 0` orbit collapses all three values to `0`). -/
theorem C7_apsis_ordering_amended (o : KeplerianOrbit)
    (ha : 0 ≤ o.semimajor_axis) (he0 : 0 ≤ o.eccentricity)
    (he1 : o.eccentricity < 1) :
    (0 ≤ o.periapsis ∧ o.periapsis ≤ o.semimajor_axis ∧
      o.semimajor_axis ≤ o.apoapsis ∧
      o.periapsis + o.apoapsis = 2 * o.semimajor_axis) ∧
    (0 < o.eccentricity → 0 < o.semimajor_axis →
      o.periapsis < o.semimajor_axis ∧ o.semimajor_axis < o.apoapsis) := by
  unfold KeplerianOrbit.periapsis KeplerianOrbit.apoapsis
  have hea : 0 ≤ o.eccentricity * o.semimajor_axis := mul_nonneg he0 ha
  refine ⟨⟨?_, by nlinarith, by nlinarith, by ring⟩, fun hep hap => ?_⟩
  · have : 0 ≤ 1.0 - o.eccentricity := by norm_num; linarith
    exact mul_nonneg this ha
  · have hpos : 0 < o.eccentricity * o.semimajor_axis := mul_pos hep hap
    constructor <;> nlinarith

theorem C7_apsis_ordering_amended_witness :
    ((0 : ℝ) ≤ (KeplerianOrbit.mk 2 (1/2) 0 false).semimajor_axis ∧
      (0 : ℝ) ≤ (KeplerianOrbit.mk 2 (1/2) 0 false).eccentricity ∧
      (KeplerianOrbit.mk 2 (1/2) 0 false).eccentricity < 1) ∧
    ((0 ≤ (KeplerianOrbit.mk 2 (1/2) 0 false).periapsis ∧
      (KeplerianOrbit.mk 2 (1/2) 0 false).periapsis ≤
        (KeplerianOrbit.mk 2 (1/2) 0 false).semimajor_axis ∧
      (KeplerianOrbit.mk 2 (1/2) 0 false).semimajor_axis ≤
        (KeplerianOrbit.mk 2 (1/2) 0 false).apoapsis ∧
      (KeplerianOrbit.mk 2 (1/2) 0 false).periapsis +
          (KeplerianOrbit.mk 2 (1/2) 0 false).apoapsis =
        2 * (KeplerianOrbit.mk 2 (1/2) 0 false).semimajor_axis) ∧
    (0 < (KeplerianOrbit.mk 2 (1/2) 0 false).eccentricity →
      0 < (KeplerianOrbit.mk 2 (1/2) 0 false).semimajor_axis →
      (KeplerianOrbit.mk 2 (1/2) 0 false).periapsis <
          (KeplerianOrbit.mk 2 (1/2) 0 false).semimajor_axis ∧
        (KeplerianOrbit.mk 2 (1/2) 0 false).semimajor_axis <
          (KeplerianOrbit.mk 2 (1/2) 0 false).apoapsis)) :=
  ⟨⟨by norm_num, by norm_num, by norm_num⟩,
   C7_apsis_ordering_amended (KeplerianOrbit.mk 2 (1/2) 0 false)
     (by norm_num) (by norm_num) (by norm_num)⟩

/-! ## Claim C8 -/

/-- C8: the constructor stores `|semimajor_axis|` and `|eccentricity|`
(negative inputs silently normalized), stores `argument_of_periapsis` and
`clockwise` unchanged, accepts every real input (it is a total function,
so no error is ever raised), and in particular accepts
`eccentricity = 2 ≥ 1`. -/
theorem C8_constructor_normalizes (a e ω : ℝ) (cw : Bool) :
    (KeplerianOrbit.construct a e ω cw).semimajor_axis = |a| ∧
    (KeplerianOrbit.construct a e ω cw).eccentricity = |e| ∧
    (KeplerianOrbit.construct a e ω cw).argument_of_periapsis = ω ∧
    (KeplerianOrbit.construct a e ω cw).clockwise = cw ∧
    (KeplerianOrbit.construct a 2 ω cw).eccentricity = 2 := by
  refine ⟨rfl, rfl, rfl, rfl, ?_⟩
  show |(2:ℝ)| = 2
  norm_num

/-! ## Evaluation lemmas for `atan2` -/

theorem atan2_zero_one : atan2 0 1 = 0 := by
  simp [atan2, Complex.arg_one]

theorem atan2_one_zero : atan2 1 0 = Real.pi / 2 := by
  simp [atan2, Complex.arg_I]

/-- `atan2` recovers the angle of a vector of positive length `a` at
angle `θ ∈ (-π, π]`. -/
theorem atan2_mul_sin_cos {a θ : ℝ} (ha : 0 < a)
    (hθ : θ ∈ Set.Ioc (-Real.pi) Real.pi) :
    atan2 (a * Real.sin θ) (a * Real.cos θ) = θ := by
  unfold atan2
  have h : ((a * Real.cos θ : ℝ) : ℂ) +
        ((a * Real.sin θ : ℝ) : ℂ) * Complex.I =
      (a : ℂ) * (Complex.cos (θ : ℂ) + Complex.sin (θ : ℂ) * Complex.I) := by
    rw [Complex.ofReal_mul, Complex.ofReal_mul, Complex.ofReal_cos,
      Complex.ofReal_sin]
    ring
  rw [h, Complex.arg_mul_cos_add_sin_mul_I ha hθ]

theorem atan2_sin_cos {θ : ℝ} (hθ : θ ∈ Set.Ioc (-Real.pi) Real.pi) :
    atan2 (Real.sin θ) (Real.cos θ) = θ := by
  have := atan2_mul_sin_cos one_pos hθ
  rwa [one_mul, one_mul] at this

/-! ## Conversion lemmas on circular orbits (`e = 0`) -/

/-- On a circular orbit the Newton loop converges on its first iteration:
the residual at the initial guess is exactly `0`. -/
theorem newton_iter_zero_ecc (M : ℝ) (n : ℕ) :
    MeanAnomaly.newton_iter 0 M (n + 1) M = M := by
  have htol := tolerance_pos
  simp only [MeanAnomaly.newton_iter, MeanAnomaly.clamp]
  norm_num [htol]

/-- `MeanAnomaly.eccentric_anomaly` on a circular orbit returns the mean
anomaly unchanged. -/
theorem mean_to_ecc_zero_ecc (a ω M : ℝ) (cw : Bool) :
    (MeanAnomaly.mk M).eccentric_anomaly (KeplerianOrbit.mk a 0 ω cw) =
      EccentricAnomaly.mk M := by
  unfold MeanAnomaly.eccentric_anomaly
  exact congrArg EccentricAnomaly.mk (newton_iter_zero_ecc M 9)

/-- `EccentricAnomaly.true_anomaly` on a circular orbit with positive
radius returns the angle unchanged for angles in `(-π, π]`. -/
theorem ecc_to_true_zero_ecc (a ω E : ℝ) (cw : Bool) (ha : 0 < a)
    (hE : E ∈ Set.Ioc (-Real.pi) Real.pi) :
    (EccentricAnomaly.mk E).true_anomaly (KeplerianOrbit.mk a 0 ω cw) =
      TrueAnomaly.mk E := by
  unfold EccentricAnomaly.true_anomaly EccentricAnomaly.point
    KeplerianOrbit.focal_point KeplerianOrbit.semiminor_axis
  simp only
  norm_num [Real.sqrt_one]
  rw [mul_comm (Real.sin E) a, mul_comm (Real.cos E) a,
    atan2_mul_sin_cos ha hE]

/-- `EccentricAnomaly.mean_anomaly` on a circular orbit returns the angle
unchanged. -/
theorem ecc_to_mean_zero_ecc (a ω E : ℝ) (cw : Bool) :
    (EccentricAnomaly.mk E).mean_anomaly (KeplerianOrbit.mk a 0 ω cw) =
      MeanAnomaly.mk E := by
  unfold EccentricAnomaly.mean_anomaly
  norm_num

/-- `TrueAnomaly.eccentric_anomaly` on a circular orbit with positive
radius and `ω = 0` returns the angle unchanged for angles in `(-π, π]`. -/
theorem true_to_ecc_zero_ecc (a θ : ℝ) (cw : Bool) (ha : 0 < a)
    (hθ : θ ∈ Set.Ioc (-Real.pi) Real.pi) :
    (TrueAnomaly.mk θ).eccentric_anomaly (KeplerianOrbit.mk a 0 0 cw) =
      EccentricAnomaly.mk θ := by
  unfold TrueAnomaly.eccentric_anomaly TrueAnomaly.point TrueAnomaly.radius
    KeplerianOrbit.focal_point KeplerianOrbit.semiminor_axis
  simp only
  norm_num [Real.sqrt_one]
  rw [mul_div_cancel_right₀ _ (ne_of_gt ha),
    mul_div_cancel_right₀ _ (ne_of_gt ha), atan2_sin_cos hθ]

/-- Evaluation of `TrueAnomaly.eccentric_anomaly` at `ν = 0` on the unit
circular orbit rotated by `ω = π/2`: because `TrueAnomaly.point` folds
`ω` into the angle, the conversion lands at `π/2` instead of `0`. -/
theorem true_to_ecc_rotated_eval :
    (TrueAnomaly.mk 0).eccentric_anomaly
        (KeplerianOrbit.mk 1 0 (Real.pi / 2) false) =
      EccentricAnomaly.mk (Real.pi / 2) := by
  unfold TrueAnomaly.eccentric_anomaly TrueAnomaly.point TrueAnomaly.radius
    KeplerianOrbit.focal_point KeplerianOrbit.semiminor_axis
  simp only
  norm_num [Real.sqrt_one, Real.cos_pi_div_two, Real.sin_pi_div_two,
    atan2_one_zero]

/-! ## Claim C2 -/

/-- C5 counterexample: on the circular orbit `a = 1`, `e = 0` with
`ω = π/2`, the conversion `TrueAnomaly(0).eccentric_anomaly(orbit)`
returns the angle `π/2 ≠ 0`, so the anomaly values do not coincide under
every pairwise conversion for every `e = 0` orbit. -/
theorem C5_circular_degeneracy_counterexample :
    (KeplerianOrbit.mk 1 0 (Real.pi / 2) false).eccentricity = 0 ∧
    ((TrueAnomaly.mk 0).eccentric_anomaly
        (KeplerianOrbit.mk 1 0 (Real.pi / 2) false)).angle ≠
      (TrueAnomaly.mk (0:ℝ)).angle := by
  refine ⟨rfl, ?_⟩
  rw [true_to_ecc_rotated_eval]
  show Real.pi / 2 ≠ 0
  exact ne_of_gt (half_pos Real.pi_pos)

/-- C5 (amended): for every orbit with `e = 0`, `semiminor_axis()`,
`periapsis()` and `apoapsis()` all equal the semimajor axis and
`focal_point()` is `0`; and on such orbits with `a > 0` and `ω = 0`,
every pairwise conversion between the three anomaly types preserves any
angle in `(-π, π]`.  (For `ω ≠ 0`, `TrueAnomaly.eccentric_anomaly`
shifts the angle by `ω`; for angles outside `(-π, π]`, `atan2` wraps.) -/
theorem C5_circular_degeneracy_amended (a ω θ : ℝ) (cw : Bool) :
    ((KeplerianOrbit.mk a 0 ω cw).semiminor_axis =
        (KeplerianOrbit.mk a 0 ω cw).semimajor_axis ∧
      (KeplerianOrbit.mk a 0 ω cw).focal_point = 0 ∧
      (KeplerianOrbit.mk a 0 ω cw).periapsis =
        (KeplerianOrbit.mk a 0 ω cw).semimajor_axis ∧
      (KeplerianOrbit.mk a 0 ω cw).apoapsis =
        (KeplerianOrbit.mk a 0 ω cw).semimajor_axis) ∧
    (0 < a → θ ∈ Set.Ioc (-Real.pi) Real.pi →
      (TrueAnomaly.mk θ).eccentric_anomaly (KeplerianOrbit.mk a 0 0 cw) =
        EccentricAnomaly.mk θ ∧
      (TrueAnomaly.mk θ).mean_anomaly (KeplerianOrbit.mk a 0 0 cw) =
        MeanAnomaly.mk θ ∧
      (EccentricAnomaly.mk θ).true_anomaly (KeplerianOrbit.mk a 0 0 cw) =
        TrueAnomaly.mk θ ∧
      (EccentricAnomaly.mk θ).mean_anomaly (KeplerianOrbit.mk a 0 0 cw) =
        MeanAnomaly.mk θ ∧
      (MeanAnomaly.mk θ).eccentric_anomaly (KeplerianOrbit.mk a 0 0 cw) =
        EccentricAnomaly.mk θ ∧
      (MeanAnomaly.mk θ).true_anomaly (KeplerianOrbit.mk a 0 0 cw) =
        TrueAnomaly.mk θ) := by
  refine ⟨⟨?_, ?_, ?_, ?_⟩, fun ha hθ => ?_⟩
  · show a * Real.sqrt (1.0 - 0 * 0) = a
    norm_num
  · show (0:ℝ) * a = 0
    norm_num
  · show (1.0 - 0) * a = a
    norm_num
  · show (1.0 + 0) * a = a
    norm_num
  refine ⟨?_, ?_, ?_, ?_, ?_, ?_⟩
  · exact true_to_ecc_zero_ecc a θ cw ha hθ
  · unfold TrueAnomaly.mean_anomaly
    rw [true_to_ecc_zero_ecc a θ cw ha hθ, ecc_to_mean_zero_ecc]
  · exact ecc_to_true_zero_ecc a 0 θ cw ha hθ
  · exact ecc_to_mean_zero_ecc a 0 θ cw
  · exact mean_to_ecc_zero_ecc a 0 θ cw
  · unfold MeanAnomaly.true_anomaly
    rw [mean_to_ecc_zero_ecc]
    exact ecc_to_true_zero_ecc a 0 θ cw ha hθ

theorem C5_circular_degeneracy_amended_witness :
    (0:ℝ) < 1 ∧ ((1:ℝ)/2) ∈ Set.Ioc (-Real.pi) Real.pi ∧
    (((KeplerianOrbit.mk 1 0 1 false).semiminor_axis =
        (KeplerianOrbit.mk 1 0 1 false).semimajor_axis ∧
      (KeplerianOrbit.mk 1 0 1 false).focal_point = 0 ∧
      (KeplerianOrbit.mk 1 0 1 false).periapsis =
        (KeplerianOrbit.mk 1 0 1 false).semimajor_axis ∧
      (KeplerianOrbit.mk 1 0 1 false).apoapsis =
        (KeplerianOrbit.mk 1 0 1 false).semimajor_axis) ∧
    ((TrueAnomaly.mk (1/2)).eccentric_anomaly
        (KeplerianOrbit.mk 1 0 0 false) = EccentricAnomaly.mk (1/2) ∧
      (TrueAnomaly.mk (1/2)).mean_anomaly (KeplerianOrbit.mk 1 0 0 false) =
        MeanAnomaly.mk (1/2) ∧
      (EccentricAnomaly.mk (1/2)).true_anomaly
        (KeplerianOrbit.mk 1 0 0 false) = TrueAnomaly.mk (1/2) ∧
      (EccentricAnomaly.mk (1/2)).mean_anomaly
        (KeplerianOrbit.mk 1 0 0 false) = MeanAnomaly.mk (1/2) ∧
      (MeanAnomaly.mk (1/2)).eccentric_anomaly
        (KeplerianOrbit.mk 1 0 0 false) = EccentricAnomaly.mk (1/2) ∧
      (MeanAnomaly.mk (1/2)).true_anomaly (KeplerianOrbit.mk 1 0 0 false) =
        TrueAnomaly.mk (1/2))) := by
  have h3 := Real.pi_gt_three
  have hmem : ((1:ℝ)/2) ∈ Set.Ioc (-Real.pi) Real.pi :=
    ⟨by linarith, by linarith⟩
  have h := C5_circular_degeneracy_amended 1 1 (1/2) false
  exact ⟨one_pos, hmem, h.1, h.2 one_pos hmem⟩

/-! ## Claim C10 -/

/-- C10: on an orbit with eccentricity exactly `0`,
`MeanAnomaly(M).eccentric_anomaly(orbit)` returns the angle `M` exactly,
exiting on the first iteration: the residual `M - 0·sin M - M` is
exactly `0` (below the tolerance), the clamp to `[-0/2, 0/2]` forces
every update to `0`, and a single-iteration budget already returns `M`. -/
theorem C10_circular_newton_first_iteration (a ω M : ℝ) (cw : Bool) :
    (MeanAnomaly.mk M).eccentric_anomaly (KeplerianOrbit.mk a 0 ω cw) =
      EccentricAnomaly.mk M ∧
    M - 0 * Real.sin M - M = 0 ∧
    |M - 0 * Real.sin M - M| < MeanAnomaly.tolerance ∧
    (∀ x : ℝ, MeanAnomaly.clamp x (-(0:ℝ) / 2.0) ((0:ℝ) / 2.0) = 0) ∧
    MeanAnomaly.newton_iter 0 M 1 M = M := by
  refine ⟨mean_to_ecc_zero_ecc a ω M cw, by ring, ?_, ?_,
    newton_iter_zero_ecc M 0⟩
  · have h : M - 0 * Real.sin M - M = 0 := by ring
    rw [h, abs_zero]
    exact tolerance_pos
  · intro x
    have h : MeanAnomaly.clamp x (-(0:ℝ) / 2.0) ((0:ℝ) / 2.0) =
        min (max x 0) 0 := by
      unfold MeanAnomaly.clamp
      norm_num
    rw [h]
    exact min_eq_right (le_max_right x 0)

/-! ## Claim C9 -/

/-- C9: every conversion and geometry operation — `radius`, `point`,
`point2d`, `eccentric_anomaly`, `true_anomaly`, `mean_anomaly` on the
three anomaly types, and the orbit accessors — leaves all fields of the
supplied `KeplerianOrbit` and of the receiver anomaly unchanged (none of
the method bodies assigns to `this.*` or `orbit.*`), and every conversion
returns a freshly constructed anomaly of the target type (each ends in
`new <TargetClass>(angle)`), never the receiver, whose class differs. -/
theorem C9_operations_mutate_nothing (o : KeplerianOrbit) (t : TrueAnomaly)
    (ec : EccentricAnomaly) (m : MeanAnomaly) (p : Point) :
    (o.semiminor_axis_st.2 = o ∧ o.focal_point_st.2 = o ∧
      o.periapsis_st.2 = o ∧ o.apoapsis_st.2 = o ∧
      o.is_clockwise_st.2 = o ∧ (o.rotate_point_st p).2 = o) ∧
    ((t.radius_st o).2 = (t, o) ∧ (t.point_st o).2 = (t, o) ∧
      (t.point2d_st o).2 = (t, o) ∧
      (t.eccentric_anomaly_st o).2 = (t, o) ∧
      (t.mean_anomaly_st o).2 = (t, o)) ∧
    ((ec.radius_st o).2 = (ec, o) ∧ (ec.point_st o).2 = (ec, o) ∧
      (ec.point2d_st o).2 = (ec, o) ∧
      (ec.true_anomaly_st o).2 = (ec, o) ∧
      (ec.mean_anomaly_st o).2 = (ec, o)) ∧
    ((m.radius_at_mean_anomaly_st o).2 = (m, o) ∧
      (m.point_st o).2 = (m, o) ∧ (m.point2d_st o).2 = (m, o) ∧
      (m.true_anomaly_st o).2 = (m, o) ∧
      (m.eccentric_anomaly_st o).2 = (m, o)) ∧
    ((t.eccentric_anomaly_st o).1 =
        EccentricAnomaly.mk ((t.eccentric_anomaly o).angle) ∧
      (t.mean_anomaly_st o).1 =
        MeanAnomaly.mk ((t.mean_anomaly o).angle) ∧
      (ec.true_anomaly_st o).1 =
        TrueAnomaly.mk ((ec.true_anomaly o).angle) ∧
      (ec.mean_anomaly_st o).1 =
        MeanAnomaly.mk ((ec.mean_anomaly o).angle) ∧
      (m.true_anomaly_st o).1 =
        TrueAnomaly.mk ((m.true_anomaly o).angle) ∧
      (m.eccentric_anomaly_st o).1 =
        EccentricAnomaly.mk ((m.eccentric_anomaly o).angle)) :=
  ⟨⟨rfl, rfl, rfl, rfl, rfl, rfl⟩,
   ⟨rfl, rfl, rfl, rfl, rfl⟩,
   ⟨rfl, rfl, rfl, rfl, rfl⟩,
   ⟨rfl, rfl, rfl, rfl, rfl⟩,
   ⟨rfl, rfl, rfl, rfl, rfl, rfl⟩⟩

/-! ## Convergence analysis of the Newton solver -/

theorem sin_lip (x y : ℝ) : |Real.sin x - Real.sin y| ≤ |x - y| := by
  rw [Real.sin_sub_sin, abs_mul, abs_mul]
  have h1 : |Real.sin ((x - y) / 2)| ≤ |x - y| / 2 := by
    have h := Real.abs_sin_le_abs (x := (x - y) / 2)
    rwa [abs_div, abs_two] at h
  have h2 : |Real.cos ((x + y) / 2)| ≤ 1 := Real.abs_cos_le_one _
  have h3 : (0:ℝ) ≤ |Real.sin ((x - y) / 2)| := abs_nonneg _
  have h4 : (0:ℝ) ≤ |x - y| / 2 := by positivity
  calc |(2:ℝ)| * |Real.sin ((x - y) / 2)| * |Real.cos ((x + y) / 2)|
      ≤ |(2:ℝ)| * |Real.sin ((x - y) / 2)| * 1 := by
        apply mul_le_mul_of_nonneg_left h2
        positivity
    _ = 2 * |Real.sin ((x - y) / 2)| := by rw [abs_two]; ring
    _ ≤ 2 * (|x - y| / 2) := by linarith
    _ = |x - y| := by ring

theorem one_sub_cos_le (x : ℝ) : 1 - Real.cos x ≤ x ^ 2 / 2 := by
  have h1 : Real.cos x = 2 * Real.cos (x / 2) ^ 2 - 1 := by
    conv_lhs => rw [show x = 2 * (x / 2) by ring]
    rw [Real.cos_two_mul]
  have h2 : Real.sin (x / 2) ^ 2 + Real.cos (x / 2) ^ 2 = 1 :=
    Real.sin_sq_add_cos_sq _
  have h3 : |Real.sin (x / 2)| ≤ |x / 2| := Real.abs_sin_le_abs
  have h4 : Real.sin (x / 2) ^ 2 ≤ (x / 2) ^ 2 := by
    have h5 := mul_self_le_mul_self (abs_nonneg (Real.sin (x / 2))) h3
    nlinarith [sq_abs (Real.sin (x / 2)), sq_abs (x / 2)]
  nlinarith

theorem sub_sin_le {x : ℝ} (h : |x| ≤ 1) : |x - Real.sin x| ≤ |x| ^ 3 / 4 := by
  rcases lt_trichotomy x 0 with hx | hx | hx
  · have h1 : 0 < -x := by linarith
    have h2 : -x ≤ 1 := by rw [abs_of_neg hx] at h; linarith
    have h3 := Real.sin_gt_sub_cube h1 h2
    rw [Real.sin_neg] at h3
    have h4 := Real.sin_lt h1
    rw [Real.sin_neg] at h4
    rw [abs_of_neg hx, abs_of_nonpos (by linarith : x - Real.sin x ≤ 0)]
    nlinarith
  · subst hx; simp
  · have h2 : x ≤ 1 := by rwa [abs_of_pos hx] at h
    have h3 := Real.sin_gt_sub_cube hx h2
    have h4 := Real.sin_lt hx
    rw [abs_of_pos hx, abs_of_nonneg (by linarith : 0 ≤ x - Real.sin x)]
    nlinarith

theorem clamp_of_abs_le {x c : ℝ} (h : |x| ≤ c) :
    MeanAnomaly.clamp x (-c) c = x := by
  rw [abs_le] at h
  rw [MeanAnomaly.clamp, max_eq_left h.1, min_eq_left h.2]

theorem clamp_of_ge {x c : ℝ} (h0 : 0 ≤ c) (h : c ≤ x) :
    MeanAnomaly.clamp x (-c) c = c := by
  rw [MeanAnomaly.clamp, max_eq_left (by linarith), min_eq_right h]

theorem clamp_of_le {x c : ℝ} (h0 : 0 ≤ c) (h : x ≤ -c) :
    MeanAnomaly.clamp x (-c) c = -c := by
  rw [MeanAnomaly.clamp, max_eq_right h, min_eq_left (by linarith)]

theorem kstep_eq (e M E : ℝ) :
    kstep e M E =
      E - MeanAnomaly.clamp (kepler e M E / (1 - e * Real.cos E))
        (-(e / 2)) (e / 2) := by
  rw [kstep]
  norm_num [neg_div]

theorem newton_iter_eq_kstep (e M : ℝ) (n : ℕ) (E : ℝ) :
    MeanAnomaly.newton_iter e M (n + 1) E =
      if |kepler e M E| < MeanAnomaly.tolerance then kstep e M E
      else MeanAnomaly.newton_iter e M n (kstep e M E) := rfl

theorem kiter_succ_outer (e M : ℝ) (n : ℕ) (E : ℝ) :
    kiter e M (n + 1) E = kstep e M (kiter e M n E) := by
  induction n generalizing E with
  | zero => rfl
  | succ n ih =>
    rw [show kiter e M (n + 1 + 1) E = kiter e M (n + 1) (kstep e M E) from rfl,
      ih, show kiter e M (n + 1) E = kiter e M n (kstep e M E) from rfl]

theorem newton_iter_ret (e M : ℝ) :
    ∀ (n : ℕ) (E : ℝ),
      (∃ i, i < n ∧ |kepler e M (kiter e M i E)| < MeanAnomaly.tolerance) →
      ∃ i, i < n ∧ |kepler e M (kiter e M i E)| < MeanAnomaly.tolerance ∧
        MeanAnomaly.newton_iter e M n E = kstep e M (kiter e M i E) := by
  intro n
  induction n with
  | zero => rintro E ⟨i, hi, _⟩; omega
  | succ n ih =>
    rintro E ⟨i, hi, hf⟩
    by_cases h0 : |kepler e M E| < MeanAnomaly.tolerance
    · refine ⟨0, Nat.succ_pos n, ?_, ?_⟩
      · simpa [kiter] using h0
      · rw [newton_iter_eq_kstep, if_pos h0]
        rfl
    · have hi0 : i ≠ 0 := by
        rintro rfl
        exact h0 (by simpa [kiter] using hf)
      obtain ⟨j, rfl⟩ := Nat.exists_eq_succ_of_ne_zero hi0
      have hf' : |kepler e M (kiter e M j (kstep e M E))| <
          MeanAnomaly.tolerance := hf
      obtain ⟨i', hi', hf'', heq⟩ := ih (kstep e M E) ⟨j, by omega, hf'⟩
      refine ⟨i' + 1, by omega, hf'', ?_⟩
      rw [newton_iter_eq_kstep, if_neg h0, heq]
      rfl

theorem kepler_sub (e M x y : ℝ) :
    kepler e M x - kepler e M y =
      (x - y) - e * (Real.sin x - Real.sin y) := by
  unfold kepler
  ring

theorem kepler_gap_lower (e M x y : ℝ) (he : 0 ≤ e) :
    (1 - e) * |x - y| ≤ |kepler e M x - kepler e M y| := by
  rw [kepler_sub]
  have hs := sin_lip x y
  have h1 : |x - y| - |e * (Real.sin x - Real.sin y)| ≤
      |x - y - e * (Real.sin x - Real.sin y)| :=
    abs_sub_abs_le_abs_sub _ _
  rw [abs_mul, abs_of_nonneg he] at h1
  nlinarith [abs_nonneg (Real.sin x - Real.sin y)]

theorem kepler_gap_upper (e M x y : ℝ) (he : 0 ≤ e) :
    |kepler e M x - kepler e M y| ≤ (1 + e) * |x - y| := by
  rw [kepler_sub]
  have hs := sin_lip x y
  have h1 : |x - y - e * (Real.sin x - Real.sin y)| ≤
      |x - y| + |e * (Real.sin x - Real.sin y)| := abs_sub _ _
  rw [abs_mul, abs_of_nonneg he] at h1
  nlinarith [abs_nonneg (Real.sin x - Real.sin y)]

theorem kepler_lt_of_lt (e M : ℝ) (he0 : 0 ≤ e) (he1 : e < 1) {x y : ℝ}
    (h : x < y) : kepler e M x < kepler e M y := by
  have hs := sin_lip y x
  have h2 := abs_le.1 hs
  have h3 : |y - x| = y - x := abs_of_pos (by linarith)
  rw [h3] at h2
  unfold kepler
  nlinarith [h2.1, h2.2]

theorem kepler_le_of_le (e M : ℝ) (he0 : 0 ≤ e) (he1 : e < 1) {x y : ℝ}
    (h : x ≤ y) : kepler e M x ≤ kepler e M y := by
  rcases eq_or_lt_of_le h with rfl | h'
  · exact le_rfl
  · exact le_of_lt (kepler_lt_of_lt e M he0 he1 h')

theorem kepler_has_root (e M : ℝ) (he0 : 0 ≤ e) (he1 : e < 1) :
    ∃ Es, kepler e M Es = 0 := by
  have hc : ContinuousOn (fun E => kepler e M E) (Set.Icc (M - 1) (M + 1)) := by
    apply Continuous.continuousOn
    unfold kepler
    fun_prop
  have h1 : kepler e M (M - 1) ≤ 0 := by
    unfold kepler
    nlinarith [Real.neg_one_le_sin (M - 1), Real.sin_le_one (M - 1)]
  have h2 : 0 ≤ kepler e M (M + 1) := by
    unfold kepler
    nlinarith [Real.neg_one_le_sin (M + 1), Real.sin_le_one (M + 1)]
  have hm : (0:ℝ) ∈ Set.Icc (kepler e M (M - 1)) (kepler e M (M + 1)) :=
    ⟨h1, h2⟩
  obtain ⟨Es, _, hEs⟩ :=
    intermediate_value_Icc (by linarith : M - 1 ≤ M + 1) hc hm
  exact ⟨Es, hEs⟩

theorem kepler_root_range (e M Es : ℝ) (he0 : 0 ≤ e) (he1 : e < 1)
    (hM : M ∈ Set.Ioc (-Real.pi) Real.pi) (hr : kepler e M Es = 0) :
    Es ∈ Set.Ioc (-Real.pi) Real.pi ∧ M - Es = -(e * Real.sin Es) := by
  refine ⟨⟨?_, ?_⟩, ?_⟩
  · by_contra h
    push_neg at h
    have h1 : kepler e M Es ≤ kepler e M (-Real.pi) :=
      kepler_le_of_le e M he0 he1 h
    have h2 : kepler e M (-Real.pi) < 0 := by
      unfold kepler
      rw [Real.sin_neg, Real.sin_pi]
      have := hM.1
      nlinarith
    rw [hr] at h1
    linarith
  · by_contra h
    push_neg at h
    have h1 : kepler e M Real.pi < kepler e M Es :=
      kepler_lt_of_lt e M he0 he1 h
    have h2 : 0 ≤ kepler e M Real.pi := by
      unfold kepler
      rw [Real.sin_pi]
      have := hM.2
      nlinarith
    rw [hr] at h1
    linarith
  · unfold kepler at hr
    linarith

theorem abs_le_of_sq_le {x y : ℝ} (h : x ^ 2 ≤ y ^ 2) (hy : 0 ≤ y) :
    |x| ≤ y := by
  have h2 := Real.sqrt_le_sqrt h
  rwa [Real.sqrt_sq_eq_abs, Real.sqrt_sq hy] at h2

theorem fp_pos (e E : ℝ) (he0 : 0 ≤ e) (he1 : e < 1) :
    0 < 1 - e * Real.cos E := by
  nlinarith [Real.cos_le_one E, Real.neg_one_le_cos E]

/-- Region bound: for `e ≤ 9/10`, `e·|sin E| ≤ (52/25)·(1 - e·cos E)`. -/
theorem kappa1_B (e E : ℝ) (he0 : 0 ≤ e) (he : e ≤ 9/10) :
    e * |Real.sin E| ≤ (52/25) * (1 - e * Real.cos E) := by
  have hsc := Real.sin_sq_add_cos_sq E
  have hc2 := Real.cos_le_one E
  have key : (1 - e ^ 2) * Real.sin E ^ 2 ≤ (1 - e * Real.cos E) ^ 2 := by
    nlinarith [sq_nonneg (e - Real.cos E)]
  have hnum : e ^ 2 ≤ (52/25) ^ 2 * (1 - e ^ 2) := by nlinarith
  have h5 : e ^ 2 * Real.sin E ^ 2 ≤
      ((52/25) ^ 2 * (1 - e ^ 2)) * Real.sin E ^ 2 :=
    mul_le_mul_of_nonneg_right hnum (sq_nonneg _)
  have h6 : ((52/25) ^ 2 * (1 - e ^ 2)) * Real.sin E ^ 2 ≤
      (52/25) ^ 2 * (1 - e * Real.cos E) ^ 2 := by
    have := mul_le_mul_of_nonneg_left key
      (by positivity : (0:ℝ) ≤ (52/25) ^ 2)
    nlinarith [this]
  have key2 : (e * |Real.sin E|) ^ 2 ≤
      ((52/25) * (1 - e * Real.cos E)) ^ 2 := by
    rw [mul_pow, mul_pow, sq_abs]
    nlinarith [h5, h6]
  have hpos : (0:ℝ) ≤ (52/25) * (1 - e * Real.cos E) := by nlinarith
  have h3 := abs_le_of_sq_le key2 hpos
  rwa [abs_of_nonneg (by positivity : (0:ℝ) ≤ e * |Real.sin E|)] at h3

/-- Region bound: for `e ≤ 69/100`, `e·|sin E| ≤ (24/25)·(1 - e·cos E)`. -/
theorem kappa1_A (e E : ℝ) (he0 : 0 ≤ e) (he : e ≤ 69/100) :
    e * |Real.sin E| ≤ (24/25) * (1 - e * Real.cos E) := by
  have hsc := Real.sin_sq_add_cos_sq E
  have hc2 := Real.cos_le_one E
  have key : (1 - e ^ 2) * Real.sin E ^ 2 ≤ (1 - e * Real.cos E) ^ 2 := by
    nlinarith [sq_nonneg (e - Real.cos E)]
  have hnum : e ^ 2 ≤ (24/25) ^ 2 * (1 - e ^ 2) := by nlinarith
  have h5 : e ^ 2 * Real.sin E ^ 2 ≤
      ((24/25) ^ 2 * (1 - e ^ 2)) * Real.sin E ^ 2 :=
    mul_le_mul_of_nonneg_right hnum (sq_nonneg _)
  have h6 : ((24/25) ^ 2 * (1 - e ^ 2)) * Real.sin E ^ 2 ≤
      (24/25) ^ 2 * (1 - e * Real.cos E) ^ 2 := by
    have := mul_le_mul_of_nonneg_left key
      (by positivity : (0:ℝ) ≤ (24/25) ^ 2)
    nlinarith [this]
  have key2 : (e * |Real.sin E|) ^ 2 ≤
      ((24/25) * (1 - e * Real.cos E)) ^ 2 := by
    rw [mul_pow, mul_pow, sq_abs]
    nlinarith [h5, h6]
  have hpos : (0:ℝ) ≤ (24/25) * (1 - e * Real.cos E) := by nlinarith
  have h3 := abs_le_of_sq_le key2 hpos
  rwa [abs_of_nonneg (by positivity : (0:ℝ) ≤ e * |Real.sin E|)] at h3

theorem kepler_eq_root (e M Es E : ℝ) (hr : kepler e M Es = 0) :
    kepler e M E = (E - Es) - e * (Real.sin E - Real.sin Es) := by
  have h := kepler_sub e M E Es
  rw [hr] at h
  linarith

/-- The exact displacement of an unclamped Newton update from the root. -/
theorem small_step_identity (e M Es E : ℝ) (hr : kepler e M Es = 0)
    (hfp : 1 - e * Real.cos E ≠ 0) :
    (E - kepler e M E / (1 - e * Real.cos E)) - Es =
      e * (Real.sin E * (1 - Real.cos (E - Es)) +
        Real.cos E * (Real.sin (E - Es) - (E - Es))) /
        (1 - e * Real.cos E) := by
  have hk := kepler_eq_root e M Es E hr
  have hsin : Real.sin Es =
      Real.sin E * Real.cos (E - Es) - Real.cos E * Real.sin (E - Es) := by
    conv_lhs => rw [show Es = E - (E - Es) by ring]
    rw [Real.sin_sub]
  rw [hk, hsin]
  field_simp
  ring

/-- Numerator estimate for the unclamped Newton update. -/
theorem small_step_numer (e E D : ℝ) (he : 0 ≤ e) (hD : |D| ≤ 1) :
    |e * (Real.sin E * (1 - Real.cos D) + Real.cos E * (Real.sin D - D))| ≤
      e * (|Real.sin E| * D ^ 2 / 2 + |D| ^ 3 / 4) := by
  rw [abs_mul, abs_of_nonneg he]
  apply mul_le_mul_of_nonneg_left _ he
  have h1 : |Real.sin E * (1 - Real.cos D) + Real.cos E * (Real.sin D - D)| ≤
      |Real.sin E| * |1 - Real.cos D| + |Real.cos E| * |Real.sin D - D| := by
    calc |Real.sin E * (1 - Real.cos D) + Real.cos E * (Real.sin D - D)|
        ≤ |Real.sin E * (1 - Real.cos D)| + |Real.cos E * (Real.sin D - D)| :=
          abs_add _ _
      _ = |Real.sin E| * |1 - Real.cos D| + |Real.cos E| * |Real.sin D - D| := by
          rw [abs_mul, abs_mul]
  have h2 : |1 - Real.cos D| ≤ D ^ 2 / 2 := by
    rw [abs_of_nonneg (by nlinarith [Real.cos_le_one D] : (0:ℝ) ≤ 1 - Real.cos D)]
    exact one_sub_cos_le D
  have h3 : |Real.sin D - D| ≤ |D| ^ 3 / 4 := by
    rw [abs_sub_comm]
    exact sub_sin_le hD
  have h4 : |Real.cos E| ≤ 1 := Real.abs_cos_le_one E
  nlinarith [abs_nonneg (Real.sin D - D), abs_nonneg (1 - Real.cos D),
    abs_nonneg (Real.cos E), abs_nonneg (Real.sin E),
    mul_le_mul h4 h3 (abs_nonneg _) zero_le_one,
    mul_le_mul_of_nonneg_left h2 (abs_nonneg (Real.sin E))]

/-- An unclamped Newton step: the update is the raw step, and the new
distance to the root is controlled quadratically. -/
theorem step_small (e M Es E : ℝ) (he0 : 0 ≤ e) (he1 : e < 1)
    (hr : kepler e M Es = 0) (hD : |E - Es| ≤ 1)
    (hun : |kepler e M E / (1 - e * Real.cos E)| ≤ e / 2) :
    |kstep e M E - Es| ≤
      e * (|Real.sin E| * (E - Es) ^ 2 / 2 + |E - Es| ^ 3 / 4) /
        (1 - e * Real.cos E) := by
  have hfp := fp_pos e E he0 he1
  rw [kstep_eq, clamp_of_abs_le hun,
    small_step_identity e M Es E hr (ne_of_gt hfp), abs_div, abs_of_pos hfp]
  exact div_le_div_of_nonneg_right (small_step_numer e E (E - Es) he0 hD) hfp.le

theorem kepler_sign_pos (e M Es E : ℝ) (he0 : 0 ≤ e) (he1 : e < 1)
    (hr : kepler e M Es = 0) (h : Es < E) : 0 < kepler e M E := by
  have := kepler_lt_of_lt e M he0 he1 h
  rwa [hr] at this

theorem kepler_sign_neg (e M Es E : ℝ) (he0 : 0 ≤ e) (he1 : e < 1)
    (hr : kepler e M Es = 0) (h : E < Es) : kepler e M E < 0 := by
  have := kepler_lt_of_lt e M he0 he1 h
  rwa [hr] at this

/-- A clamped Newton step moves the iterate exactly `e/2` toward the root. -/
theorem step_big (e M Es E : ℝ) (he0 : 0 ≤ e) (he1 : e < 1)
    (hr : kepler e M Es = 0)
    (hcl : e / 2 < |kepler e M E / (1 - e * Real.cos E)|) :
    |kstep e M E - Es| = abs (|E - Es| - e / 2) := by
  have hfp := fp_pos e E he0 he1
  have hc0 : (0:ℝ) ≤ e / 2 := by linarith
  rcases lt_trichotomy E Es with hlt | heq | hgt
  · have hk : kepler e M E < 0 := kepler_sign_neg e M Es E he0 he1 hr hlt
    have hq : kepler e M E / (1 - e * Real.cos E) < 0 := div_neg_of_neg_of_pos hk hfp
    have habs : |kepler e M E / (1 - e * Real.cos E)| =
        -(kepler e M E / (1 - e * Real.cos E)) := abs_of_neg hq
    rw [habs] at hcl
    have hle : kepler e M E / (1 - e * Real.cos E) ≤ -(e / 2) := by linarith
    rw [kstep_eq, clamp_of_le hc0 hle]
    have h1 : |E - Es| = -(E - Es) := abs_of_neg (by linarith)
    rw [h1]
    have h2 : E - -(e / 2) - Es = -(-(E - Es) - e / 2) := by ring
    rw [h2, abs_neg]
  · subst heq
    have hk : kepler e M E = 0 := hr
    rw [hk] at hcl
    simp at hcl
    linarith
  · have hk : 0 < kepler e M E := kepler_sign_pos e M Es E he0 he1 hr hgt
    have hq : 0 < kepler e M E / (1 - e * Real.cos E) := div_pos hk hfp
    have habs : |kepler e M E / (1 - e * Real.cos E)| =
        kepler e M E / (1 - e * Real.cos E) := abs_of_pos hq
    rw [habs] at hcl
    rw [kstep_eq, clamp_of_ge hc0 hcl.le]
    have h1 : |E - Es| = E - Es := abs_of_pos (by linarith)
    rw [h1]
    have h2 : E - e / 2 - Es = E - Es - e / 2 := by ring
    rw [h2]

theorem cauchy_pair (a b u v : ℝ) (h : a ^ 2 + b ^ 2 = 1) :
    (a * u - b * v) ^ 2 ≤ u ^ 2 + v ^ 2 := by
  nlinarith [sq_nonneg (a * v + b * u)]

set_option maxHeartbeats 1000000 in
/-- Close to the root the Newton quotient is within the clamp window:
`|E - Es| ≤ e/3` (with `e ≤ 9/10`) forces an unclamped step. -/
theorem small_of_close (e M Es E : ℝ) (he0 : 0 ≤ e) (heB : e ≤ 9/10)
    (hr : kepler e M Es = 0) (hD : |E - Es| ≤ e / 3) :
    |kepler e M E / (1 - e * Real.cos E)| ≤ e / 2 := by
  have he1 : e < 1 := by linarith
  have hfp := fp_pos e E he0 he1
  obtain ⟨D, hDdef⟩ : ∃ x, x = E - Es := ⟨_, rfl⟩
  rw [← hDdef] at hD
  have hD1 : |D| ≤ 1 := by linarith [abs_nonneg D]
  have hD3 : |D| ≤ 3/10 := by linarith
  have hDb := abs_le.1 hD3
  have hD2 : D ^ 2 ≤ 9/100 := by nlinarith [hDb.1, hDb.2]
  have hsin : Real.sin Es =
      Real.sin E * Real.cos D - Real.cos E * Real.sin D := by
    conv_lhs => rw [show Es = E - D by rw [hDdef]; ring]
    rw [Real.sin_sub]
  obtain ⟨u, hudef⟩ : ∃ x, x = 3 * D - 2 * Real.sin D := ⟨_, rfl⟩
  obtain ⟨v, hvdef⟩ : ∃ x, x = 2 * (1 - Real.cos D) := ⟨_, rfl⟩
  have hid : 3 * D * (1 - e * Real.cos E) - 2 * kepler e M E =
      D - e * (Real.cos E * u - Real.sin E * v) := by
    rw [hudef, hvdef, kepler_eq_root e M Es E hr, ← hDdef, hsin]
    ring
  have hu : |u| ≤ (209/200) * |D| := by
    rw [hudef, show 3 * D - 2 * Real.sin D = D + 2 * (D - Real.sin D) by ring]
    have h2 := sub_sin_le hD1
    have h3 : |D + 2 * (D - Real.sin D)| ≤ |D| + 2 * |D - Real.sin D| := by
      calc |D + 2 * (D - Real.sin D)|
          ≤ |D| + |2 * (D - Real.sin D)| := abs_add _ _
        _ = |D| + 2 * |D - Real.sin D| := by rw [abs_mul]; norm_num
    have h4' : D ^ 2 * |D| ≤ (9/100) * |D| :=
      mul_le_mul_of_nonneg_right hD2 (abs_nonneg D)
    have h4 : |D| ^ 3 ≤ (9/100) * |D| := by nlinarith [h4', sq_abs D, abs_nonneg D]
    linarith [h2, h3, h4]
  have husq : u ^ 2 ≤ (209/200) ^ 2 * D ^ 2 := by
    have := mul_self_le_mul_self (abs_nonneg u) hu
    linarith [sq_abs u, sq_abs D, this]
  have hvsq : v ^ 2 ≤ (9/100) * D ^ 2 := by
    rw [hvdef]
    have h5 := one_sub_cos_le D
    have h6 : (0:ℝ) ≤ 1 - Real.cos D := by nlinarith [Real.cos_le_one D]
    linarith [mul_le_mul h5 h5 h6 (le_trans h6 h5),
      mul_le_mul_of_nonneg_right hD2 (sq_nonneg D)]
  have hX : |e * (Real.cos E * u - Real.sin E * v)| ≤ (49/50) * |D| := by
    apply abs_le_of_sq_le _ (by positivity)
    have hcs : (Real.cos E * u - Real.sin E * v) ^ 2 ≤ u ^ 2 + v ^ 2 :=
      cauchy_pair (Real.cos E) (Real.sin E) u v (Real.cos_sq_add_sin_sq E)
    have he2 : e ^ 2 ≤ 81/100 := by nlinarith
    have hXsq : (e * (Real.cos E * u - Real.sin E * v)) ^ 2 =
        e ^ 2 * (Real.cos E * u - Real.sin E * v) ^ 2 := by ring
    have h8 : ((49/50) * |D|) ^ 2 = (49/50) ^ 2 * D ^ 2 := by
      rw [mul_pow, sq_abs]
    rw [hXsq, h8]
    have hstep1 : e ^ 2 * (Real.cos E * u - Real.sin E * v) ^ 2 ≤
        (81/100) * (Real.cos E * u - Real.sin E * v) ^ 2 :=
      mul_le_mul_of_nonneg_right he2 (sq_nonneg _)
    have hstep2 : (Real.cos E * u - Real.sin E * v) ^ 2 ≤
        (209/200) ^ 2 * D ^ 2 + (9/100) * D ^ 2 := by linarith
    linarith [hstep1, hstep2, sq_nonneg D]
  have hmain : 2 * |kepler e M E| ≤ 3 * |D| * (1 - e * Real.cos E) := by
    rcases lt_trichotomy D 0 with hneg | hzero | hpos
    · have hElt : E < Es := by
        rw [hDdef] at hneg
        linarith
      have hk : kepler e M E < 0 := kepler_sign_neg e M Es E he0 he1 hr hElt
      rw [abs_of_neg hk, abs_of_neg hneg]
      have hXlow := (abs_le.1 hX).1
      rw [abs_of_neg hneg] at hXlow
      linarith [hid, hXlow]
    · have hEeq : E = Es := by
        rw [hDdef] at hzero
        linarith
      rw [hEeq, hr]
      simp only [abs_zero, mul_zero]
      exact mul_nonneg (mul_nonneg (by norm_num) (abs_nonneg D))
        (fp_pos e Es he0 he1).le
    · have hEgt : Es < E := by
        rw [hDdef] at hpos
        linarith
      have hk : 0 < kepler e M E := kepler_sign_pos e M Es E he0 he1 hr hEgt
      rw [abs_of_pos hk, abs_of_pos hpos]
      have hXup := (abs_le.1 hX).2
      rw [abs_of_pos hpos] at hXup
      linarith [hid, hXup]
  rw [abs_div, abs_of_pos hfp, div_le_iff₀ hfp]
  linarith [hmain, mul_le_mul_of_nonneg_right
    (show 3 * |D| ≤ e by linarith) hfp.le]

/-- Region-A quadratic contraction: for `e ≤ 69/100`, an iterate within
`e/3` of the root contracts quadratically. -/
theorem step_quad_A (e M Es E : ℝ) (he0 : 0 ≤ e) (heA : e ≤ 69/100)
    (hr : kepler e M Es = 0) (hD : |E - Es| ≤ e / 3) :
    |kstep e M E - Es| ≤
      (12/25) * (E - Es) ^ 2 + (14/25) * |E - Es| ^ 3 := by
  have he1 : e < 1 := by linarith
  have hfp := fp_pos e E he0 he1
  have hun := small_of_close e M Es E he0 (by linarith) hr hD
  have hD1 : |E - Es| ≤ 1 := by linarith [abs_nonneg (E - Es)]
  have h := step_small e M Es E he0 he1 hr hD1 hun
  refine le_trans h ?_
  rw [div_le_iff₀ hfp]
  have hk := kappa1_A e E he0 heA
  have hfp' : 1 - e ≤ 1 - e * Real.cos E := by
    nlinarith [Real.cos_le_one E]
  have h1 : e * |Real.sin E| * ((E - Es) ^ 2 / 2) ≤
      (24/25) * (1 - e * Real.cos E) * ((E - Es) ^ 2 / 2) :=
    mul_le_mul_of_nonneg_right hk (by positivity)
  have h2 : e ≤ (56/25) * (1 - e * Real.cos E) := by nlinarith
  have h3 : e * (|E - Es| ^ 3 / 4) ≤
      (56/25) * (1 - e * Real.cos E) * (|E - Es| ^ 3 / 4) :=
    mul_le_mul_of_nonneg_right h2 (by positivity)
  nlinarith [h1, h3]

/-- Region-A ratio bound: for `e ≤ 69/100` and `|E - Es| ≤ e`, one full
clamped Newton step contracts the distance to the root by `3/5`. -/
theorem step_ratio_A (e M Es E : ℝ) (he0 : 0 ≤ e) (heA : e ≤ 69/100)
    (hr : kepler e M Es = 0) (hD : |E - Es| ≤ e) :
    |kstep e M E - Es| ≤ (3/5) * |E - Es| := by
  have he1 : e < 1 := by linarith
  have hfp := fp_pos e E he0 he1
  rcases le_or_lt |kepler e M E / (1 - e * Real.cos E)| (e / 2) with hun | hcl
  · have hD1 : |E - Es| ≤ 1 := by linarith
    have h := step_small e M Es E he0 he1 hr hD1 hun
    refine le_trans h ?_
    rw [div_le_iff₀ hfp]
    have hk := kappa1_A e E he0 heA
    have hsq : (E - Es) ^ 2 ≤ |E - Es| * e := by
      nlinarith [sq_abs (E - Es), mul_le_mul_of_nonneg_left hD (abs_nonneg (E - Es))]
    have hcube : |E - Es| ^ 3 ≤ |E - Es| * e ^ 2 := by
      have h0 := abs_nonneg (E - Es)
      nlinarith [mul_le_mul_of_nonneg_left hD h0,
        mul_le_mul (mul_le_mul_of_nonneg_left hD h0)
          hD (abs_nonneg (E - Es)) (by nlinarith)]
    have h1 : e * |Real.sin E| * ((E - Es) ^ 2 / 2) ≤
        (24/25) * (1 - e * Real.cos E) * (|E - Es| * e / 2) := by
      have := mul_le_mul hk (by linarith : (E - Es) ^ 2 / 2 ≤ |E - Es| * e / 2)
        (by positivity) (by nlinarith [abs_nonneg (Real.sin E)])
      nlinarith [this]
    have h2 : e ≤ (56/25) * (1 - e * Real.cos E) := by
      nlinarith [Real.cos_le_one E]
    have h3 : e * (|E - Es| ^ 3 / 4) ≤
        (56/25) * (1 - e * Real.cos E) * (|E - Es| * e ^ 2 / 4) := by
      have := mul_le_mul h2 (by linarith : |E - Es| ^ 3 / 4 ≤ |E - Es| * e ^ 2 / 4)
        (by positivity) (by nlinarith)
      nlinarith [this]
    have hfin : (24/25) * (1 - e * Real.cos E) * (|E - Es| * e / 2) +
        (56/25) * (1 - e * Real.cos E) * (|E - Es| * e ^ 2 / 4) ≤
        (3/5) * |E - Es| * (1 - e * Real.cos E) := by
      have hx := abs_nonneg (E - Es)
      have hq1 : 0 ≤ |E - Es| * (1 - e * Real.cos E) *
          (3/5 - (2166/2500) * e) :=
        mul_nonneg (mul_nonneg hx hfp.le) (by linarith)
      have hq2 : 0 ≤ |E - Es| * (1 - e * Real.cos E) *
          (e * (69/100 - e)) :=
        mul_nonneg (mul_nonneg hx hfp.le) (mul_nonneg he0 (by linarith))
      linarith [hq1, hq2]
    linarith [h1, h3, hfin]
  · have hgt : e / 3 < |E - Es| := by
      by_contra hle
      push_neg at hle
      exact absurd (small_of_close e M Es E he0 (by linarith) hr hle)
        (not_le.2 hcl)
    have heq := step_big e M Es E he0 he1 hr hcl
    rw [heq]
    rcases abs_cases (|E - Es| - e / 2) with h | h <;> rw [h.1]
    · linarith
    · linarith

/-- Region-B quadratic bound for an unclamped step. -/
theorem step_quad_B (e M Es E : ℝ) (he0 : 0 ≤ e) (heB : e ≤ 9/10)
    (hr : kepler e M Es = 0) (hD1 : |E - Es| ≤ 1)
    (hun : |kepler e M E / (1 - e * Real.cos E)| ≤ e / 2) :
    |kstep e M E - Es| ≤
      (26/25) * (E - Es) ^ 2 + (9/4) * |E - Es| ^ 3 := by
  have he1 : e < 1 := by linarith
  have hfp := fp_pos e E he0 he1
  have h := step_small e M Es E he0 he1 hr hD1 hun
  refine le_trans h ?_
  rw [div_le_iff₀ hfp]
  have hk := kappa1_B e E he0 heB
  have h1 : e * |Real.sin E| * ((E - Es) ^ 2 / 2) ≤
      (52/25) * (1 - e * Real.cos E) * ((E - Es) ^ 2 / 2) :=
    mul_le_mul_of_nonneg_right hk (by positivity)
  have h2 : e ≤ 9 * (1 - e * Real.cos E) := by
    nlinarith [Real.cos_le_one E]
  have h3 : e * (|E - Es| ^ 3 / 4) ≤
      9 * (1 - e * Real.cos E) * (|E - Es| ^ 3 / 4) :=
    mul_le_mul_of_nonneg_right h2 (by positivity)
  nlinarith [h1, h3]

/-- In region B any step started within `9/20` of the root does not move
farther from it. -/
theorem step_noninc_B (e M Es E : ℝ) (he0 : 0 ≤ e) (heB : e ≤ 9/10)
    (hr : kepler e M Es = 0) (hD : |E - Es| ≤ 9/20) :
    |kstep e M E - Es| ≤ |E - Es| := by
  have he1 : e < 1 := by linarith
  rcases le_or_lt |kepler e M E / (1 - e * Real.cos E)| (e / 2) with hun | hcl
  · have h := step_quad_B e M Es E he0 heB hr (by linarith) hun
    have h0 := abs_nonneg (E - Es)
    have hsq : (E - Es) ^ 2 ≤ (9/20) * |E - Es| := by
      nlinarith [sq_abs (E - Es), mul_le_mul_of_nonneg_left hD h0]
    have hcube : |E - Es| ^ 3 ≤ (81/400) * |E - Es| := by
      nlinarith [mul_le_mul_of_nonneg_left hD h0,
        mul_le_mul (mul_le_mul_of_nonneg_left hD h0) hD h0 (by norm_num)]
    linarith [h, hsq, hcube]
  · have hgt : e / 3 < |E - Es| := by
      by_contra hle
      push_neg at hle
      exact absurd (small_of_close e M Es E he0 heB hr hle) (not_le.2 hcl)
    have heq := step_big e M Es E he0 he1 hr hcl
    rw [heq]
    rcases abs_cases (|E - Es| - e / 2) with h | h <;> rw [h.1]
    · linarith
    · linarith

/-- One region-B chain step: given `|E - Es| ≤ b ≤ 9/20` and a target
`b'` dominating the quadratic bound and both clamped outcomes, the next
iterate is within `b'` of the root (for `69/100 < e ≤ 9/10`). -/
theorem stepB_bound (e M Es E b b' : ℝ) (he69 : 69/100 < e)
    (heB : e ≤ 9/10) (hr : kepler e M Es = 0)
    (hD : |E - Es| ≤ b) (hb : b ≤ 9/20)
    (hq : (26/25) * b ^ 2 + (9/4) * b ^ 3 ≤ b')
    (hc2 : 3/20 ≤ b') :
    |kstep e M E - Es| ≤ b' := by
  have he0 : (0:ℝ) ≤ e := by linarith
  have he1 : e < 1 := by linarith
  have hb0 : (0:ℝ) ≤ b := le_trans (abs_nonneg _) hD
  rcases le_or_lt |kepler e M E / (1 - e * Real.cos E)| (e / 2) with hun | hcl
  · have h := step_quad_B e M Es E he0 heB hr (by linarith) hun
    have hsq : (E - Es) ^ 2 ≤ b ^ 2 := by
      rw [← sq_abs]
      exact pow_le_pow_left (abs_nonneg _) hD 2
    have hcube : |E - Es| ^ 3 ≤ b ^ 3 :=
      pow_le_pow_left (abs_nonneg _) hD 3
    linarith
  · have hgt : e / 3 < |E - Es| := by
      by_contra hle
      push_neg at hle
      exact absurd (small_of_close e M Es E he0 heB hr hle) (not_le.2 hcl)
    have heq := step_big e M Es E he0 he1 hr hcl
    rw [heq]
    rcases abs_cases (|E - Es| - e / 2) with h | h <;> rw [h.1]
    · linarith
    · linarith

/-- One region-B chain step in the terminal zone `b ≤ 23/100`: the step
is necessarily unclamped and the quadratic bound applies. -/
theorem stepB_small (e M Es E b b' : ℝ) (he69 : 69/100 < e)
    (heB : e ≤ 9/10) (hr : kepler e M Es = 0)
    (hD : |E - Es| ≤ b) (hb : b ≤ 23/100)
    (hq : (26/25) * b ^ 2 + (9/4) * b ^ 3 ≤ b') :
    |kstep e M E - Es| ≤ b' := by
  have he0 : (0:ℝ) ≤ e := by linarith
  have hun := small_of_close e M Es E he0 heB hr (by linarith)
  have h := step_quad_B e M Es E he0 heB hr (by linarith) hun
  have hsq : (E - Es) ^ 2 ≤ b ^ 2 := by
    rw [← sq_abs]
    exact pow_le_pow_left (abs_nonneg _) hD 2
  have hcube : |E - Es| ^ 3 ≤ b ^ 3 :=
    pow_le_pow_left (abs_nonneg _) hD 3
  linarith

set_option maxHeartbeats 1000000 in
/-- Step-0 clamping, algebraic branch `w ≤ e·s/2` (after replacing
`cos(es)`, `sin(es)` by their worst Taylor corners). -/
theorem S0_P1 (e s w : ℝ) (hs : 1/2 ≤ s) (hs1 : s ≤ 1) (he : e ≤ 9/10)
    (hx : 9/20 < e * s) (hw : w ^ 2 = 1 - s ^ 2) (hwb : w ≤ e * s / 2) :
    1 < (2*s + e*w) * (1 - (e*s)^2/2) + (e*s - 2*w) * (e*s - (e*s)^3/4) := by
  have he0 : (0:ℝ) < e := by nlinarith
  have hes0 : (0:ℝ) < e * s := by linarith
  have hesu : e * s ≤ 9/10 := by nlinarith
  obtain ⟨u, hudef⟩ : ∃ x, x = (e*s)^2 := ⟨_, rfl⟩
  have hu1 : u ≤ 81/100 := by
    rw [hudef]
    nlinarith [mul_self_le_mul_self hes0.le hesu]
  have hu0 : 81/400 < u := by
    rw [hudef]
    nlinarith [mul_self_lt_mul_self (by norm_num : (0:ℝ) ≤ 9/20) hx]
  obtain ⟨K, hKdef⟩ : ∃ x, x = 2*s*(1 - u/4) - (1 - u/2) := ⟨_, rfl⟩
  have hK0 : 0 ≤ K := by
    rw [hKdef]
    nlinarith [mul_le_mul_of_nonneg_right (show (1:ℝ) ≤ 2*s by linarith)
      (show (0:ℝ) ≤ 1 - u/4 by linarith)]
  have hK1 : K ≤ 1 := by
    rw [hKdef]
    nlinarith [mul_le_mul_of_nonneg_right (show 2*s ≤ (2:ℝ) by linarith)
      (show (0:ℝ) ≤ 1 - u/4 by linarith)]
  have hid : (2*s + e*w) * (1 - (e*s)^2/2) +
      (e*s - 2*w) * (e*s - (e*s)^3/4) - 1 =
      (2*s*(1 - u/2) - 1) + u*(1 - u/4) - w*e*K := by
    rw [hKdef, hudef]
    ring
  rcases le_or_lt w 0 with hwneg | hwpos
  · have hA2 : 1 - u/2 ≤ 2*s*(1 - u/2) :=
      le_mul_of_one_le_left (by linarith) (by linarith)
    have hwK : w*e*K ≤ 0 :=
      mul_nonpos_of_nonpos_of_nonneg
        (mul_nonpos_of_nonpos_of_nonneg hwneg he0.le) hK0
    have huu : 0 < u * (2 - u) := mul_pos (by linarith) (by linarith)
    nlinarith [hid, hA2, hwK, huu]
  · have h4s : 4 - u ≤ 4*s^2 := by
      rw [hudef]
      nlinarith [mul_self_le_mul_self hwpos.le hwb]
    have hg : 0 ≤ u^2/4 - (719/400)*u + 141761/40000 := by
      nlinarith [sq_nonneg u]
    have hprod : 0 ≤ (81/100 - u) * (u^2/4 - (719/400)*u + 141761/40000) :=
      mul_nonneg (by linarith) hg
    have hcubic : 1 < (4 - u) * (1 - u/2)^2 := by nlinarith [hprod]
    have hsqA : 1 < (2*s*(1 - u/2))^2 := by
      nlinarith [hcubic, mul_le_mul_of_nonneg_right h4s (sq_nonneg (1 - u/2))]
    have hA : 1 < 2*s*(1 - u/2) := by
      have hA0 : 0 < 2*s*(1 - u/2) := by
        apply mul_pos (by linarith)
        linarith
      nlinarith [hsqA, sq_nonneg (2*s*(1 - u/2) - 1)]
    have hs89 : 89/100 ≤ s := by
      by_contra hlt
      push_neg at hlt
      nlinarith [mul_self_lt_mul_self (show (0:ℝ) ≤ s by linarith) hlt, h4s, hu1]
    have hs14 : (1:ℝ)/2 ≤ s*(1 - u/4) := by
      nlinarith [mul_le_mul hs89 (show (319:ℝ)/400 ≤ 1 - u/4 by linarith)
        (by norm_num) (by linarith : (0:ℝ) ≤ s)]
    have hterm : e^2*s/2 ≤ u*(1 - u/4) := by
      have h5 : e^2*s*(1/2) ≤ e^2*s*(s*(1 - u/4)) :=
        mul_le_mul_of_nonneg_left hs14 (by positivity)
      have h6 : u*(1 - u/4) = e^2*s*(s*(1 - u/4)) := by rw [hudef]; ring
      linarith [h5, h6.ge]
    have ht1 : w*e ≤ (e*s/2)*e := mul_le_mul_of_nonneg_right hwb he0.le
    have ht2 : w*e*K ≤ (e*s/2)*e*K := mul_le_mul_of_nonneg_right ht1 hK0
    have ht3 : (e*s/2)*e*K ≤ (e*s/2)*e*1 :=
      mul_le_mul_of_nonneg_left hK1 (by positivity)
    have hwK : w*e*K ≤ e^2*s/2 := by nlinarith [ht2, ht3]
    nlinarith [hid, hA, hterm, hwK]

set_option maxHeartbeats 1000000 in
/-- Step-0 clamping, algebraic branch `e·s/2 ≤ w`. -/
theorem S0_P2 (e s w : ℝ) (hs : 1/2 ≤ s) (hs1 : s ≤ 1) (he : e ≤ 9/10)
    (hx : 9/20 < e * s) (hw : w ^ 2 = 1 - s ^ 2) (hwb : e * s / 2 ≤ w) :
    1 < (2*s + e*w) * (1 - (e*s)^2/2) + (e*s - 2*w) * (e*s) := by
  have he0 : (0:ℝ) < e := by nlinarith
  have hw0 : (0:ℝ) < w := lt_of_lt_of_le (by nlinarith) hwb
  have hw1 : w ≤ 1 := by nlinarith [sq_nonneg (w - 1)]
  have hew2 : e * w ≤ (9/10) * w := mul_le_mul_of_nonneg_right he hw0.le
  have hid : (2*s + e*w) * (1 - (e*s)^2/2) + (e*s - 2*w) * (e*s) - 1 =
      (2*s - 1) * (1 - e*w) + (e*s)^2 * ((1 - s) - e*w/2) := by ring
  rcases le_or_lt (e*w/2) (1 - s) with hcase | hcase
  · have hσ : 0 ≤ 2*s - 1 := by linarith
    have hδ : 0 ≤ (1 - s) - e*w/2 := by linarith
    have h110 : 1/10 ≤ 1 - e*w := by nlinarith
    have t1 : (2*s-1) * (1/10) ≤ (2*s-1) * (1-e*w) :=
      mul_le_mul_of_nonneg_left h110 hσ
    have t2 : (81/400) * ((1-s) - e*w/2) ≤ (e*s)^2 * ((1-s) - e*w/2) :=
      mul_le_mul_of_nonneg_right
        (by nlinarith [hx, mul_pos he0 (by linarith : (0:ℝ) < s)]) hδ
    nlinarith [t1, t2]
  · have hs3 : 319/481 ≤ s := by
      by_contra hne
      push_neg at hne
      have h920 : 1 - s < (9/20) * w := by linarith
      have hsq := mul_self_lt_mul_self (by linarith : (0:ℝ) ≤ 1 - s) h920
      nlinarith [mul_pos (by linarith : (0:ℝ) < 1 - s)
        (by linarith : (0:ℝ) < 319 - 481*s)]
    have hσ : 157/481 ≤ 2*s - 1 := by linarith
    have hes2 : (e*s)^2 ≤ (81/100)*s^2 := by
      nlinarith [mul_le_mul_of_nonneg_right
        (mul_le_mul he he he0.le (by norm_num : (0:ℝ) ≤ 9/10)) (sq_nonneg s)]
    have hstep1 : (e*s)^2 * (e*w/2 - (1-s)) ≤
        (81/100)*s^2 * (e*w/2 - (1-s)) :=
      mul_le_mul_of_nonneg_right hes2 (by linarith)
    have hstep2 : (81/100)*s^2 * (e*w/2 - (1-s)) ≤
        (81/100)*s^2 * ((9/20)*w - (1-s)) := by
      apply mul_le_mul_of_nonneg_left _ (by positivity)
      linarith
    have hstep3 : (2*s-1) * (1 - (9/10)*w) ≤ (2*s-1) * (1 - e*w) :=
      mul_le_mul_of_nonneg_left (by linarith) (by linarith)
    have hwy : 2*w ≤ 2 - s^2 := by nlinarith [sq_nonneg (w - 1)]
    have hfin : 0 < (2*s-1) * (1 - (9/10)*w) -
        (81/100)*s^2 * ((9/20)*w - (1-s)) := by
      nlinarith [hwy, hσ, hs1, hw0.le, sq_nonneg (s - 319/481),
        sq_nonneg (1 - s), mul_nonneg (by linarith : (0:ℝ) ≤ s - 319/481)
          (by linarith : (0:ℝ) ≤ 1 - s),
        mul_nonneg (mul_nonneg (by linarith : (0:ℝ) ≤ s - 319/481)
          (by linarith : (0:ℝ) ≤ 1 - s)) (by linarith : (0:ℝ) ≤ s)]
    nlinarith [hstep1, hstep2, hstep3, hfin]

set_option maxHeartbeats 1000000 in
/-- Step-0 clamping, trigonometric core: if `e·sin Es > 9/20` then at
`M = Es - e·sin Es` the residual-to-derivative quotient exceeds `e/2`. -/
theorem S0_core (e Es : ℝ) (he0 : 0 ≤ e) (heB : e ≤ 9/10)
    (hbig : 9/20 < e * Real.sin Es) :
    1 - e * Real.cos (Es - e * Real.sin Es) <
      2 * Real.sin (Es - e * Real.sin Es) := by
  have hs1 : Real.sin Es ≤ 1 := Real.sin_le_one Es
  have hs : 1/2 ≤ Real.sin Es := by nlinarith
  have hx0 : (0:ℝ) < e * Real.sin Es := by linarith
  have hxu : e * Real.sin Es ≤ 9/10 := by nlinarith
  have hw : Real.cos Es ^ 2 = 1 - Real.sin Es ^ 2 := by
    nlinarith [Real.sin_sq_add_cos_sq Es]
  have hwlo : -1 ≤ Real.cos Es := Real.neg_one_le_cos Es
  have hcx1 : Real.cos (e * Real.sin Es) ≤ 1 :=
    Real.cos_le_one _
  have hcx0 : 1 - (e * Real.sin Es)^2/2 ≤ Real.cos (e * Real.sin Es) := by
    linarith [one_sub_cos_le (e * Real.sin Es)]
  have hsx1 : Real.sin (e * Real.sin Es) < e * Real.sin Es :=
    Real.sin_lt hx0
  have hsx0 : e * Real.sin Es - (e * Real.sin Es)^3/4 <
      Real.sin (e * Real.sin Es) :=
    Real.sin_gt_sub_cube hx0 (by linarith)
  rw [Real.sin_sub, Real.cos_sub]
  have hcoef : 0 ≤ 2 * Real.sin Es + e * Real.cos Es := by
    nlinarith [mul_le_mul_of_nonneg_left hwlo he0]
  have hterm1 : (2 * Real.sin Es + e * Real.cos Es) *
      (1 - (e * Real.sin Es)^2/2) ≤
      (2 * Real.sin Es + e * Real.cos Es) * Real.cos (e * Real.sin Es) :=
    mul_le_mul_of_nonneg_left hcx0 hcoef
  rcases le_or_lt (Real.cos Es) (e * Real.sin Es / 2) with hwb | hwb
  · have hP := S0_P1 e (Real.sin Es) (Real.cos Es) hs hs1 heB hbig hw hwb
    have hterm2 : (e * Real.sin Es - 2 * Real.cos Es) *
        (e * Real.sin Es - (e * Real.sin Es)^3/4) ≤
        (e * Real.sin Es - 2 * Real.cos Es) * Real.sin (e * Real.sin Es) :=
      mul_le_mul_of_nonneg_left hsx0.le (by linarith)
    nlinarith [hP, hterm1, hterm2]
  · have hP := S0_P2 e (Real.sin Es) (Real.cos Es) hs hs1 heB hbig hw hwb.le
    have hterm2 : (e * Real.sin Es - 2 * Real.cos Es) *
        (e * Real.sin Es) ≤
        (e * Real.sin Es - 2 * Real.cos Es) * Real.sin (e * Real.sin Es) :=
      mul_le_mul_of_nonpos_left hsx1.le (by linarith)
    nlinarith [hP, hterm1, hterm2]

/-- Step-0 clamping: if `e·|sin Es| > 9/20` (with `M = Es - e·sin Es`)
then the Newton quotient at the initial guess `M` exceeds the clamp
window `e/2`. -/
theorem S0_clamped (e M Es : ℝ) (he0 : 0 ≤ e) (heB : e ≤ 9/10)
    (hM : M = Es - e * Real.sin Es) (hbig : 9/20 < e * |Real.sin Es|) :
    e / 2 < |kepler e M M / (1 - e * Real.cos M)| := by
  have he1 : e < 1 := by linarith
  have hfp := fp_pos e M he0 he1
  have hepos : (0:ℝ) < e := by
    rcases le_or_lt e 0 with h | h
    · nlinarith [abs_nonneg (Real.sin Es)]
    · exact h
  have hk : kepler e M M = -(e * Real.sin M) := by
    unfold kepler
    ring
  rw [hk, abs_div, abs_neg, abs_mul, abs_of_nonneg he0, abs_of_pos hfp,
    lt_div_iff₀ hfp]
  have hkey : 1 - e * Real.cos M < 2 * |Real.sin M| := by
    rcases le_or_lt (Real.sin Es) 0 with hneg | hpos
    · have hbig' : 9/20 < e * Real.sin (-Es) := by
        rw [Real.sin_neg]
        rwa [abs_of_nonpos hneg] at hbig
      have h := S0_core e (-Es) he0 heB hbig'
      have harg : -Es - e * Real.sin (-Es) = -M := by
        rw [Real.sin_neg, hM]
        ring
      rw [harg, Real.cos_neg, Real.sin_neg] at h
      calc 1 - e * Real.cos M < 2 * -Real.sin M := h
        _ ≤ 2 * |Real.sin M| := by
            have := neg_abs_le (Real.sin M)
            linarith [le_abs_self (Real.sin M), neg_le_abs (Real.sin M)]
    · have hbig' : 9/20 < e * Real.sin Es := by
        rwa [abs_of_pos hpos] at hbig
      have h := S0_core e Es he0 heB hbig'
      rw [← hM] at h
      calc 1 - e * Real.cos M < 2 * Real.sin M := h
        _ ≤ 2 * |Real.sin M| := by linarith [le_abs_self (Real.sin M)]
  nlinarith [hkey, abs_nonneg (Real.sin M)]
